import Mathlib

/-!
Verification of the retail-sales dashboard pipelines.

Shallow embedding of the normalization, classification, aggregation and
benchmarking logic of the two Python pipelines
(`retail_dashboard_example` and `retail_dashboard_invoices`).
Numeric values are modelled as rationals; a Python `None`/`NaN` cell is
modelled as `Option.none`; a raised exception is modelled as an
`Option.none` result of a fallible function.

The Python string primitives (`strip`, `upper`, `lower`, `replace` of a
single character, slicing) are re-implemented by structural recursion on
the character list of a `String`, so that every definition evaluates by
kernel reduction.  They agree with Python on the ASCII data these
pipelines process.
-/

set_option maxRecDepth 8000

namespace RetailDash

/-- Python whitespace for `str.strip`: tab, LF, VT, FF, CR, space. -/
def isPySpace (c : Char) : Bool :=
  c.toNat = 9 ∨ c.toNat = 10 ∨ c.toNat = 11 ∨ c.toNat = 12 ∨
    c.toNat = 13 ∨ c.toNat = 32

/-- ASCII uppercasing of one character (Python `str.upper` on ASCII). -/
def charUpper (c : Char) : Char :=
  if 97 ≤ c.toNat ∧ c.toNat ≤ 122 then Char.ofNat (c.toNat - 32) else c

/-- ASCII lowercasing of one character (Python `str.lower` on ASCII). -/
def charLower (c : Char) : Char :=
  if 65 ≤ c.toNat ∧ c.toNat ≤ 90 then Char.ofNat (c.toNat + 32) else c

def trimChars (l : List Char) : List Char :=
  ((l.dropWhile isPySpace).reverse.dropWhile isPySpace).reverse

/-- Python `s.strip()`. -/
def pyStrip (s : String) : String := ⟨trimChars s.data⟩

/-- Python `s.upper()` (ASCII). -/
def pyUpper (s : String) : String := ⟨s.data.map charUpper⟩

/-- Python `s.lower()` (ASCII). -/
def pyLower (s : String) : String := ⟨s.data.map charLower⟩

/-- Python `s.replace(c, "")` for a one-character pattern: drop every
occurrence of the character. -/
def pyRemoveChar (c : Char) (s : String) : String :=
  ⟨s.data.filter (fun d => d ≠ c)⟩

/-- A raw cell value as the cleaners receive it: null (`pd.isna`), an
already-numeric value, or a string. -/
inductive PyVal where
  | null : PyVal
  | num : ℚ → PyVal
  | str : String → PyVal
deriving DecidableEq

def digitsToNat (l : List Char) : ℕ :=
  l.foldl (fun a c => a * 10 + (c.toNat - 48)) 0

def parseUnsignedDec (l : List Char) : Option ℚ :=
  let intPart := l.takeWhile (fun c => c ≠ '.')
  let rest := l.dropWhile (fun c => c ≠ '.')
  match rest with
  | [] =>
      if intPart ≠ [] ∧ intPart.all Char.isDigit then
        some (digitsToNat intPart : ℚ)
      else none
  | _ :: fracPart =>
      if fracPart.any (fun c => c = '.') then none
      else if (intPart ≠ [] ∨ fracPart ≠ []) ∧ intPart.all Char.isDigit ∧
            fracPart.all Char.isDigit then
        some (mkRat (digitsToNat intPart * 10 ^ fracPart.length +
          digitsToNat fracPart) (10 ^ fracPart.length))
      else none

/-- Decimal-literal parser modelling Python `float(s)` on the inputs the
pipelines feed it: optional surrounding whitespace, optional sign,
digits with an optional decimal point (at least one digit overall).
Returns `none` where `float` raises `ValueError`.  (Exponent forms,
`inf`/`nan` and underscore separators never occur in these pipelines
and are not modelled.) -/
def parseFloatQ (s : String) : Option ℚ :=
  match trimChars s.data with
  | '-' :: rest => (parseUnsignedDec rest).map Neg.neg
  | '+' :: rest => parseUnsignedDec rest
  | l => parseUnsignedDec l

namespace AnalyzeInvoices

/-- `clean_currency` of `retail_dashboard_invoices/scripts/analyze_invoices.py`
(lines 58-76): null to 0.0, numeric cast, strip dollar signs and commas,
accounting-style parenthesized negatives, unparseable to 0.0. -/
def clean_currency (v : PyVal) : ℚ :=
  match v with
  | .null => 0
  | .num q => q
  | .str raw =>
      let s := pyStrip (pyRemoveChar ',' (pyRemoveChar '$' raw))
      if s = "" then 0
      else
        let s2 := if s.data.head? = some '(' ∧ s.data.getLast? = some ')' then
            ⟨'-' :: (s.data.drop 1).dropLast⟩
          else s
        (parseFloatQ s2).getD 0

end AnalyzeInvoices

namespace AnalyzeSalesOrders

/-- `clean_currency` of `retail_dashboard_example/scripts/analyze_sales_orders.py`
(lines 53-59): `float(str(value).replace(..).strip() or 0)`.
No parenthesized-negative handling and no exception guard: a result of
`none` models the `ValueError` that `float` raises on an unparseable
string. -/
def clean_currency (v : PyVal) : Option ℚ :=
  match v with
  | .null => some 0
  | .num q => some q
  | .str raw =>
      let s := pyStrip (pyRemoveChar ',' (pyRemoveChar '$' raw))
      if s = "" then some 0 else parseFloatQ s

/-- `convert_discount_pct` of `analyze_sales_orders.py` (lines 62-74):
null or unparseable to 0.0, otherwise divide by 100. -/
def convert_discount_pct (v : PyVal) : ℚ :=
  match v with
  | .null => 0
  | .num q => q / 100
  | .str raw => ((parseFloatQ raw).map (· / 100)).getD 0

end AnalyzeSalesOrders

namespace PySplitYears

/-- The `XZERO_CODES` sentinel set of `py_split_years.py` (line 33). -/
def XZERO_CODES : List String :=
  ["XERO", "ZERO", "XZERO", "XXXXX", "X9999", "ZXERO", "XZRO", "WARRANTY"]

/-- `E1399_PREFIX` of `py_split_years.py` (line 34). -/
def E1399_BASE : String := "E1399"

/-- `MANUAL_OVERRIDES` of `py_split_years.py` (lines 38-50),
cleaned-upper value to corrected value. -/
def MANUAL_OVERRIDES : List (String × String) :=
  [("\x27E0184", "E0184"),
   ("1399", "E1399"),
   ("1399NU", "E1399"),
   ("A7520\x27", "A7520"),
   ("A92701", "A9270"),
   ("E00295", "E0295"),
   ("E01399", "E1399"),
   ("E0627NU", "E0627"),
   ("E199", "E1399"),
   ("E399", "E1399"),
   ("E635", "E0635")]

/-- Association-list lookup modelling Python dict membership + indexing. -/
def lookupTable : List (String × String) → String → Option String
  | [], _ => none
  | (k, val) :: rest, c => if c = k then some val else lookupTable rest c

/-- The reason categories of the override audit records. -/
inductive Reason where
  | nullValue : Reason
  | manualOverride : Reason
  | xzeroVariant : Reason
  | e1399Variant : Reason
  | invalidLength : Reason
  | noOverride : Reason
deriving DecidableEq

/-- `clean_proc_code` of `py_split_years.py` (lines 53-89): uppercase and
trim, manual overrides, XZERO sentinel collapse, E1399 base collapse,
length-5 enforcement.  The input is `Option String` (`none` models a
null/NaN cell); the result pairs the cleaned code with the audit reason
(`noOverride` models the `None` reason of the unchanged case). -/
def clean_proc_code (v : Option String) : String × Reason :=
  match v with
  | none => ("XZERO", .nullValue)
  | some raw =>
      let cleaned := pyUpper (pyStrip raw)
      match lookupTable MANUAL_OVERRIDES cleaned with
      | some corrected => (corrected, .manualOverride)
      | none =>
          if cleaned ∈ XZERO_CODES then ("XZERO", .xzeroVariant)
          else if E1399_BASE.data.isPrefixOf cleaned.data ∧
              cleaned ≠ E1399_BASE then
            ("E1399", .e1399Variant)
          else if cleaned.length ≠ 5 then ("XZERO", .invalidLength)
          else (cleaned, .noOverride)

end PySplitYears

namespace AnalyzeInvoices

/-- `clean_proc_code` of `analyze_invoices.py` (lines 155-178): the
lookup-table strategy.  The mapping (loaded once from the mapping CSV)
is passed explicitly; `none` input models a null/NaN cell. -/
def clean_proc_code (mapping : List (String × String)) (v : Option String) :
    String :=
  match v with
  | none => "UNKNOWN"
  | some raw =>
      let orig := pyStrip raw
      if orig = "" then "UNKNOWN"
      else
        match PySplitYears.lookupTable mapping orig with
        | some m => m
        | none =>
            match PySplitYears.lookupTable mapping (pyUpper orig) with
            | some m => m
            | none => pyUpper orig

/-- The payor-level classification of `load_and_process_file`
(`analyze_invoices.py` lines 230-241): `is_retail` and `is_insurance`
from the Policy Payor Level label.  `none` models a NaN cell, for which
the pandas string comparisons yield `False`. -/
def classify_payor (label : Option String) : Bool × Bool :=
  match label with
  | none => (false, false)
  | some s =>
      let c := pyLower (pyStrip s)
      (c = "patient",
       c = "primary" ∨ c = "secondary" ∨ c = "tertiary")

end AnalyzeInvoices

namespace InvoiceDashboard

/-- Minimum of a series (used only on nonempty series, as in the source,
where `pandas` min of the secondary series is taken). -/
def seriesMin : List ℚ → ℚ
  | [] => 0
  | x :: xs => xs.foldl min x

/-- Maximum of a series (used only on nonempty series). -/
def seriesMax : List ℚ → ℚ
  | [] => 0
  | x :: xs => xs.foldl max x

/-- Count of series values strictly less than `v`
(`np.sum(sorted_data < value)`; sorting is irrelevant to the count). -/
def countLess (v : ℚ) (data : List ℚ) : ℕ :=
  (data.filter (fun x => x < v)).length

/-- Count of series values equal to `v` (`np.sum(sorted_data == value)`). -/
def countEq (v : ℚ) (data : List ℚ) : ℕ :=
  (data.filter (fun x => x = v)).length

/-- `calculate_percentile_rank` of
`retail_dashboard_invoices/scripts/invoice_dashboard.py` (lines 486-529).
`data` is the peer series with nulls already dropped (the callers pass
never-null series, except the collection-rate call which passes the
`dropna()` result).  `secondary = some (sv, ss)` models passing both
`secondary_value` and `secondary_series`. -/
def calculate_percentile_rank (value : ℚ) (data : List ℚ)
    (secondary : Option (ℚ × List ℚ)) : ℚ :=
  if data.length = 0 then 50
  else if data.length = 1 then 50
  else
    let n : ℕ := data.length
    let adj : ℚ :=
      match secondary with
      | none => 0
      | some (sv, ss) =>
          if 1 < countEq value data then
            let secRange := seriesMax ss - seriesMin ss
            if 0 < secRange then
              (sv - seriesMin ss) / secRange * (1 / 2) / (n : ℚ)
            else 0
          else 0
    let percentile := (countLess value data : ℚ) / ((n : ℚ) - 1) * 100 + adj
    min (max percentile 0) 100

/-- One branch row as produced by the `groupby('branch')` aggregation at
the head of `calculate_branch_percentiles` (lines 551-568): summed
payments and billed amounts, summed retail/insurance item counts and the
distinct invoice count. -/
structure BranchAgg where
  branch : String
  payments : ℚ
  totalBilled : ℚ
  retailItems : ℚ
  insuranceItems : ℚ
  invoices : ℚ
deriving DecidableEq

/-- The derived and rank columns appended by
`calculate_branch_percentiles` (lines 570-629). -/
structure BranchOut where
  collectionRate : Option ℚ
  retailMix : ℚ
  totalItems : ℚ
  paymentsPctl : ℚ
  collectionPctl : Option ℚ
  retailMixPctl : ℚ
  volumePctl : ℚ
  performanceScore : ℚ
deriving DecidableEq

/-- `Collection_Rate` column (lines 572-575): `None` (modelled `none`)
unless the branch's total billed is positive. -/
def collection_rate (r : BranchAgg) : Option ℚ :=
  if 0 < r.totalBilled then some (r.payments / r.totalBilled * 100) else none

/-- `Retail_Mix` column (lines 577-582). -/
def retail_mix (r : BranchAgg) : ℚ :=
  let totalItems := r.retailItems + r.insuranceItems
  if 0 < totalItems then r.retailItems / totalItems * 100 else 0

/-- The non-null collection rates (`valid_collection`, line 595). -/
def valid_collection (rows : List BranchAgg) : List ℚ :=
  rows.filterMap collection_rate

/-- One output row of `calculate_branch_percentiles` (lines 585-627):
the four percentile ranks with their secondary tie-breakers and the
weighted composite performance score (`fillna(50.0)` on the collection
rank inside the score only). -/
def branch_out (rows : List BranchAgg) (r : BranchAgg) : BranchOut :=
  let paymentsList := rows.map (fun x => x.payments)
  let invoicesList := rows.map (fun x => x.invoices)
  let retailMixList := rows.map retail_mix
  let totalItemsList := rows.map (fun x => x.retailItems + x.insuranceItems)
  let paymentsPctl := calculate_percentile_rank r.payments paymentsList
    (some (r.invoices, invoicesList))
  let collectionPctl := (collection_rate r).map (fun cr =>
    calculate_percentile_rank cr (valid_collection rows)
      (some (r.payments, paymentsList)))
  let retailMixPctl := calculate_percentile_rank (retail_mix r) retailMixList
    (some (r.retailItems + r.insuranceItems, totalItemsList))
  let volumePctl := calculate_percentile_rank r.invoices invoicesList
    (some (r.payments, paymentsList))
  { collectionRate := collection_rate r
    retailMix := retail_mix r
    totalItems := r.retailItems + r.insuranceItems
    paymentsPctl := paymentsPctl
    collectionPctl := collectionPctl
    retailMixPctl := retailMixPctl
    volumePctl := volumePctl
    performanceScore := (collectionPctl.getD 50) * 0.40 +
      paymentsPctl * 0.30 + volumePctl * 0.20 + retailMixPctl * 0.10 }

/-- `calculate_branch_percentiles` (lines 532-629), given the
branch-aggregated rows. -/
def calculate_branch_percentiles (rows : List BranchAgg) : List BranchOut :=
  rows.map (branch_out rows)

end InvoiceDashboard

namespace AnalyzeSalesOrders

/-- Python `round(x, 2)` modelled as round-half-up to cents (Python
rounds half to even, but no claim depends on behaviour at exact
half-cent ties, which moreover hit binary-float artefacts in the
source). -/
def round2 (q : ℚ) : ℚ := (⌊q * 100 + 1 / 2⌋ : ℚ) / 100

/-- A sales-order line item, reduced to the classification flags the
percentage columns depend on (the three insurance flags after
`safe_bool`). -/
structure SORecord where
  insPrimary : Bool
  insSecondary : Bool
  insTertiary : Bool
deriving DecidableEq

/-- `is_retail` (lines 99-103): all three insurance flags false. -/
def is_retail (r : SORecord) : Bool :=
  !r.insPrimary && !r.insSecondary && !r.insTertiary

def retailCount (l : List SORecord) : ℕ := l.countP (fun r => is_retail r)

def insuranceCount (l : List SORecord) : ℕ :=
  l.countP (fun r => !is_retail r)

/-- The per-period `Retail %` of `analyze_dataframe` (line 187),
guarded by `if total_items > 0 else 0`. -/
def summaryRetailPct (l : List SORecord) : ℚ :=
  if 0 < l.length then round2 ((retailCount l : ℚ) / (l.length : ℚ) * 100)
  else 0

/-- The per-period `Insurance %` of `analyze_dataframe` (line 188). -/
def summaryInsurancePct (l : List SORecord) : ℚ :=
  if 0 < l.length then round2 ((insuranceCount l : ℚ) / (l.length : ℚ) * 100)
  else 0

/-- The per-branch `Retail %` of `analyze_by_branch` (line 227), over the
branch-filtered rows, guarded by `if len(branch_df) > 0 else 0`. -/
def branchRetailPct (l : List SORecord) : ℚ :=
  if 0 < l.length then round2 ((retailCount l : ℚ) / (l.length : ℚ) * 100)
  else 0

/-- The per-branch `Insurance %` of `analyze_by_branch` (line 228). -/
def branchInsurancePct (l : List SORecord) : ℚ :=
  if 0 < l.length then round2 ((insuranceCount l : ℚ) / (l.length : ℚ) * 100)
  else 0

/-- The TOTAL row's `Retail %` of `main` (line 304):
`round(sum(Retail Items) / sum(Total Line Items) * 100, 2)` with NO
zero guard.  The division is numpy `int64 / int64`, which on `0 / 0`
yields NaN (with a warning, no exception); `none` models that NaN. -/
def totalRetailPct (periods : List (List SORecord)) : Option ℚ :=
  let den : ℕ := (periods.map List.length).sum
  if den = 0 then none
  else some (round2 (((periods.map retailCount).sum : ℚ) / (den : ℚ) * 100))

/-- The TOTAL row's `Insurance %` of `main` (line 305), same shape. -/
def totalInsurancePct (periods : List (List SORecord)) : Option ℚ :=
  let den : ℕ := (periods.map List.length).sum
  if den = 0 then none
  else some (round2 (((periods.map insuranceCount).sum : ℚ) / (den : ℚ) * 100))

end AnalyzeSalesOrders

namespace AnalyzeInvoices

/-- An invoice line item, reduced to the fields the billing-period
analysis reads: the parsed `_billing_period` and the cleaned
`_payments`. -/
structure InvRecord where
  billingPeriod : ℤ
  payments : ℚ
deriving DecidableEq

/-- Truncation toward zero, modelling pandas `astype(int)` on a float. -/
def truncQ (q : ℚ) : ℤ := if 0 ≤ q then ⌊q⌋ else -⌊-q⌋

/-- `_billing_period` parsing of `load_and_process_file` (line 268):
`pd.to_numeric(col, errors='coerce').fillna(1).astype(int)` —
absent/unparseable cells become 1. -/
def parse_billing_period (v : Option String) : ℤ :=
  match v with
  | none => 1
  | some s => ((parseFloatQ s).map truncQ).getD 1

/-- `period_buckets` of `analyze_billing_periods`
(`analyze_invoices.py` lines 398-406): (start, end, label). -/
def period_buckets : List (ℤ × ℤ × String) :=
  [(1, 1, "Period 1 (New)"),
   (2, 3, "Period 2-3"),
   (4, 6, "Period 4-6"),
   (7, 12, "Period 7-12"),
   (13, 24, "Period 13-24"),
   (25, 36, "Period 25-36"),
   (37, 999, "Period 37+")]

/-- The rows falling in one bucket (line 409):
`df[(df['_billing_period'] >= start) & (df['_billing_period'] <= end)]`. -/
def bucketItems (records : List InvRecord) (b : ℤ × ℤ × String) :
    List InvRecord :=
  records.filter (fun r => b.1 ≤ r.billingPeriod ∧ r.billingPeriod ≤ b.2.1)

/-- The unrounded value behind a bucket's `Item %` (line 419):
`len(bucket_df) / len(df) * 100`. -/
def itemPctRaw (records : List InvRecord) (b : ℤ × ℤ × String) : ℚ :=
  ((bucketItems records b).length : ℚ) / (records.length : ℚ) * 100

def totalPayments (records : List InvRecord) : ℚ :=
  (records.map (fun r => r.payments)).sum

/-- The unrounded value behind a bucket's `Payment %` (line 421), with
its zero guard: `... if df['_payments'].sum() > 0 else 0`. -/
def paymentPctRaw (records : List InvRecord) (b : ℤ × ℤ × String) : ℚ :=
  if 0 < totalPayments records then
    totalPayments (bucketItems records b) / totalPayments records * 100
  else 0

end AnalyzeInvoices

/-! ## Helper lemmas -/

theorem lookupTable_mem {l : List (String × String)} {c r : String}
    (h : PySplitYears.lookupTable l c = some r) : (c, r) ∈ l := by
  induction l with
  | nil => simp [PySplitYears.lookupTable] at h
  | cons hd tl ih =>
      obtain ⟨k, val⟩ := hd
      by_cases hc : c = k
      · subst hc
        simp [PySplitYears.lookupTable] at h
        simp [h]
      · simp [PySplitYears.lookupTable, hc] at h
        exact List.mem_cons_of_mem _ (ih h)

theorem manual_overrides_len5 :
    ∀ p ∈ PySplitYears.MANUAL_OVERRIDES, p.2.length = 5 := by decide

/-! ## C3 — currency cleaning -/

/-- C3 counterexample: the claim says currency cleaning converts a
parenthesized value to a negative and never raises, for every input to
currency cleaning; but the sales-order family's `clean_currency` has no
parenthesized-negative handling and no exception guard, so on
`"(100.00)"` the inner `float` raises `ValueError` (modelled `none`)
instead of yielding `-100.00`. -/
theorem c3_counterexample :
    AnalyzeSalesOrders.clean_currency (PyVal.str "(100.00)") = none ∧
    AnalyzeSalesOrders.clean_currency (PyVal.str "(100.00)") ≠ some (-100) := by
  constructor
  · decide
  · intro h
    rw [show AnalyzeSalesOrders.clean_currency (PyVal.str "(100.00)") = none
      from by decide] at h
    exact Option.noConfusion h

/-- C3 (amended to the invoice-family cleaner, which the sales-order
variant does not satisfy): `clean_currency` of `analyze_invoices.py`
yields 0.0 on null, the cast on numerics, 1234.56 on "$1,234.56",
-100.00 on "(100.00)", 0.0 on "", and 0.0 on any string whose cleaned
form fails to parse — never raising. -/
theorem c3_clean_currency_policy :
    AnalyzeInvoices.clean_currency PyVal.null = 0 ∧
    (∀ q : ℚ, AnalyzeInvoices.clean_currency (PyVal.num q) = q) ∧
    AnalyzeInvoices.clean_currency (PyVal.str "$1,234.56") = 1234.56 ∧
    AnalyzeInvoices.clean_currency (PyVal.str "(100.00)") = -100 ∧
    AnalyzeInvoices.clean_currency (PyVal.str "") = 0 ∧
    (∀ s : String,
      (let s1 := pyStrip (pyRemoveChar ',' (pyRemoveChar '$' s))
       let s2 := if s1.data.head? = some '(' ∧ s1.data.getLast? = some ')' then
           (⟨'-' :: (s1.data.drop 1).dropLast⟩ : String)
         else s1
       parseFloatQ s2 = none) →
      AnalyzeInvoices.clean_currency (PyVal.str s) = 0) := by
  refine ⟨rfl, fun q => rfl, ?_, ?_, by decide, ?_⟩
  · rw [show AnalyzeInvoices.clean_currency (PyVal.str "$1,234.56") =
      mkRat 123456 100 from by decide]
    norm_num [mkRat, Rat.normalize]
  · rw [show AnalyzeInvoices.clean_currency (PyVal.str "(100.00)") =
      -(mkRat 10000 100) from by decide]
    norm_num [mkRat, Rat.normalize]
  · intro s h
    simp only [AnalyzeInvoices.clean_currency]
    split
    · rfl
    · rw [h]
      rfl

/-- C3 witness: the unparseable-string clause applied at "abc". -/
theorem c3_clean_currency_policy_witness :
    AnalyzeInvoices.clean_currency (PyVal.str "abc") = 0 :=
  c3_clean_currency_policy.2.2.2.2.2 "abc" (by decide)

/-! ## C4 — rule-based proc-code normalization -/

/-- C4 counterexample: the claim says "e0184\x27" (trailing quote) is
corrected via the manual-override table, but the table's key is the
leading-quote variant "\x27E0184"; the trailing-quote input cleans to a
6-character code matching nothing, so it is forced to the XZERO sentinel
by the invalid-length rule, and its result is no override correction. -/
theorem c4_counterexample :
    PySplitYears.clean_proc_code (some "e0184\x27") =
      ("XZERO", PySplitYears.Reason.invalidLength) ∧
    (PySplitYears.clean_proc_code (some "e0184\x27")).2 ≠
      PySplitYears.Reason.manualOverride ∧
    (∀ p ∈ PySplitYears.MANUAL_OVERRIDES,
      (PySplitYears.clean_proc_code (some "e0184\x27")).1 ≠ p.2) := by
  refine ⟨by decide, by decide, by decide⟩

/-- C4 (amended: the override-table example is the leading-quote variant
"\x27e0184" actually present in the table): rule-based normalization
corrects "\x27e0184" to "E0184" via the manual-override table, collapses
"XERO" to the "XZERO" sentinel, collapses "E1399RR" to "E1399", and
forces any 7-character code matching no override, sentinel or E1399
base to "XZERO". -/
theorem c4_proc_code_rules :
    PySplitYears.clean_proc_code (some "\x27e0184") =
      ("E0184", PySplitYears.Reason.manualOverride) ∧
    PySplitYears.lookupTable PySplitYears.MANUAL_OVERRIDES
      (pyUpper (pyStrip "\x27e0184")) = some "E0184" ∧
    PySplitYears.clean_proc_code (some "XERO") =
      ("XZERO", PySplitYears.Reason.xzeroVariant) ∧
    PySplitYears.clean_proc_code (some "E1399RR") =
      ("E1399", PySplitYears.Reason.e1399Variant) ∧
    (∀ s : String,
      (pyUpper (pyStrip s)).length = 7 →
      PySplitYears.lookupTable PySplitYears.MANUAL_OVERRIDES
        (pyUpper (pyStrip s)) = none →
      pyUpper (pyStrip s) ∉ PySplitYears.XZERO_CODES →
      PySplitYears.E1399_BASE.data.isPrefixOf (pyUpper (pyStrip s)).data
        = false →
      PySplitYears.clean_proc_code (some s) =
        ("XZERO", PySplitYears.Reason.invalidLength)) := by
  refine ⟨by decide, by decide, by decide, by decide, ?_⟩
  intro s hlen hlook hxz hpre
  simp only [PySplitYears.clean_proc_code, hlook]
  rw [if_neg hxz, if_neg (by simp [hpre]), if_pos (by omega)]

/-- C4 witness: the 7-character clause applied at "ABCDEFG". -/
theorem c4_proc_code_rules_witness :
    PySplitYears.clean_proc_code (some "ABCDEFG") =
      ("XZERO", PySplitYears.Reason.invalidLength) :=
  c4_proc_code_rules.2.2.2.2 "ABCDEFG" (by decide) (by decide) (by decide)
    (by decide)

/-! ## C9 — 5-character invariant of the rule-based cleaner -/

/-- C9: for every input (null included), the rule-based cleaner returns a
code of exactly 5 characters, and that code is the XZERO sentinel, the
E1399 base code, an override-table correction, or the trimmed-uppercased
input itself when that is 5 characters long. -/
theorem c9_proc_code_len5 (v : Option String) :
    (PySplitYears.clean_proc_code v).1.length = 5 ∧
    ((PySplitYears.clean_proc_code v).1 = "XZERO" ∨
     (PySplitYears.clean_proc_code v).1 = "E1399" ∨
     (∃ p ∈ PySplitYears.MANUAL_OVERRIDES,
        (PySplitYears.clean_proc_code v).1 = p.2) ∨
     (∃ s : String, v = some s ∧
        (PySplitYears.clean_proc_code v).1 = pyUpper (pyStrip s) ∧
        (pyUpper (pyStrip s)).length = 5)) := by
  match v with
  | none => exact ⟨by decide, Or.inl (by decide)⟩
  | some s =>
      simp only [PySplitYears.clean_proc_code]
      cases hl : PySplitYears.lookupTable PySplitYears.MANUAL_OVERRIDES
          (pyUpper (pyStrip s)) with
      | some corrected =>
          have hmem := lookupTable_mem hl
          refine ⟨manual_overrides_len5 _ hmem, Or.inr (Or.inr (Or.inl
            ⟨(pyUpper (pyStrip s), corrected), hmem, rfl⟩))⟩
      | none =>
          by_cases hxz : pyUpper (pyStrip s) ∈ PySplitYears.XZERO_CODES
          · rw [if_pos hxz]
            exact ⟨by decide, Or.inl rfl⟩
          · rw [if_neg hxz]
            by_cases hpre : PySplitYears.E1399_BASE.data.isPrefixOf
                (pyUpper (pyStrip s)).data = true ∧
                pyUpper (pyStrip s) ≠ PySplitYears.E1399_BASE
            · rw [if_pos hpre]
              exact ⟨by decide, Or.inr (Or.inl rfl)⟩
            · rw [if_neg hpre]
              by_cases hlen : (pyUpper (pyStrip s)).length ≠ 5
              · rw [if_pos hlen]
                exact ⟨by decide, Or.inl rfl⟩
              · rw [if_neg hlen]
                push_neg at hlen
                exact ⟨hlen, Or.inr (Or.inr (Or.inr ⟨s, rfl, rfl, hlen⟩))⟩

/-- C9 witness: the invariant evaluated at a null input. -/
theorem c9_proc_code_len5_witness :
    (PySplitYears.clean_proc_code none).1.length = 5 :=
  (c9_proc_code_len5 none).1

/-! ## C10 — lookup-table cleaner on null/empty input -/

/-- C10: in the lookup-table strategy, a null input and every
whitespace-only (or empty) string input yield the literal "UNKNOWN" —
a 7-character value, so neither a canonical 5-character code nor the
uppercased original — independently of the loaded mapping. -/
theorem c10_unknown_on_empty (mapping : List (String × String))
    (s : String) :
    AnalyzeInvoices.clean_proc_code mapping none = "UNKNOWN" ∧
    (pyStrip s = "" →
      AnalyzeInvoices.clean_proc_code mapping (some s) = "UNKNOWN") ∧
    ("UNKNOWN" : String).length = 7 ∧
    ¬ ("UNKNOWN" : String).length = 5 ∧
    (pyStrip s = "" → pyUpper (pyStrip s) ≠ "UNKNOWN") := by
  refine ⟨rfl, ?_, by decide, by decide, ?_⟩
  · intro h
    simp [AnalyzeInvoices.clean_proc_code, h]
  · intro h
    rw [h]
    decide

/-- C10 witness: applied to a whitespace-only string and a nonempty
mapping. -/
theorem c10_unknown_on_empty_witness :
    AnalyzeInvoices.clean_proc_code [("B4034", "B4034")] (some "  ") =
      "UNKNOWN" :=
  (c10_unknown_on_empty [("B4034", "B4034")] "  ").2.1 (by decide)

/-! ## C6 — single-label classification -/

/-- C6: under the single-label rule, is_retail holds iff the trimmed,
lowercased label equals the self-pay label "patient"; is_insurance iff
it is one of the three insurance tiers; "COD" is neither — a valid third
state; and the two flags are never both true. -/
theorem c6_single_label_rule (label : Option String) :
    ((AnalyzeInvoices.classify_payor label).1 = true ↔
      ∃ s : String, label = some s ∧ pyLower (pyStrip s) = "patient") ∧
    ((AnalyzeInvoices.classify_payor label).2 = true ↔
      ∃ s : String, label = some s ∧
        (pyLower (pyStrip s) = "primary" ∨
         pyLower (pyStrip s) = "secondary" ∨
         pyLower (pyStrip s) = "tertiary")) ∧
    AnalyzeInvoices.classify_payor (some "COD") = (false, false) ∧
    ¬ ((AnalyzeInvoices.classify_payor label).1 = true ∧
       (AnalyzeInvoices.classify_payor label).2 = true) := by
  refine ⟨?_, ?_, by decide, ?_⟩
  · match label with
    | none => simp [AnalyzeInvoices.classify_payor]
    | some s => simp [AnalyzeInvoices.classify_payor]
  · match label with
    | none => simp [AnalyzeInvoices.classify_payor]
    | some s => simp [AnalyzeInvoices.classify_payor]
  · match label with
    | none => simp [AnalyzeInvoices.classify_payor]
    | some s =>
        simp only [AnalyzeInvoices.classify_payor, decide_eq_true_eq]
        rintro ⟨h1, h2 | h2 | h2⟩ <;> rw [h1] at h2 <;> exact absurd h2
          (by decide)

/-! ## C1 — percentile rank -/

open InvoiceDashboard in
/-- C1: with no tie-breaker, the percentile rank of `v` in a peer series
(nulls dropped) of size n equals count-strictly-less / (n - 1) * 100
clamped to [0,100]; it is 50 whenever n ≤ 1 (empty set included); the
documented examples hold ([10,20,30,40] at 30 gives 200/3, below-all
gives 0, above-all gives 100, singleton gives 50); the function is total,
so the computation never raises. -/
theorem c1_percentile_rank (peers : List ℚ) (v : ℚ) :
    (peers.length ≤ 1 → calculate_percentile_rank v peers none = 50) ∧
    (2 ≤ peers.length →
      calculate_percentile_rank v peers none =
        min (max ((countLess v peers : ℚ) / ((peers.length : ℚ) - 1) * 100) 0)
          100) ∧
    (2 ≤ peers.length → (∀ x ∈ peers, v < x) →
      calculate_percentile_rank v peers none = 0) ∧
    (2 ≤ peers.length → (∀ x ∈ peers, x < v) →
      calculate_percentile_rank v peers none = 100) ∧
    calculate_percentile_rank 30 [10, 20, 30, 40] none = 200 / 3 ∧
    (∀ p : ℚ, calculate_percentile_rank v [p] none = 50) := by
  have hform : ∀ (l : List ℚ) (w : ℚ), 2 ≤ l.length →
      calculate_percentile_rank w l none =
        min (max ((countLess w l : ℚ) / ((l.length : ℚ) - 1) * 100) 0) 100 := by
    intro l w h2
    have h0 : ¬ l.length = 0 := by omega
    have h1 : ¬ l.length = 1 := by omega
    simp [calculate_percentile_rank, h0, h1]
  refine ⟨?_, hform peers v, ?_, ?_, ?_, ?_⟩
  · intro h
    rcases Nat.le_one_iff_eq_zero_or_eq_one.mp h with h0 | h1
    · simp [calculate_percentile_rank, h0]
    · simp [calculate_percentile_rank, h1]
  · intro h2 hall
    have hc : countLess v peers = 0 := by
      simp only [countLess, List.length_eq_zero]
      exact List.filter_eq_nil_iff.mpr fun a ha => by
        simp only [decide_eq_true_eq, not_lt]
        exact le_of_lt (hall a ha)
    rw [hform peers v h2, hc]
    norm_num
  · intro h2 hall
    have hc : countLess v peers = peers.length := by
      simp only [countLess]
      have : peers.filter (fun x => x < v) = peers :=
        List.filter_eq_self.mpr fun a ha => by
          simp only [decide_eq_true_eq]
          exact hall a ha
      rw [this]
    rw [hform peers v h2, hc]
    have hlen : (2:ℚ) ≤ (peers.length : ℚ) := by exact_mod_cast h2
    have hp : (0:ℚ) < (peers.length : ℚ) - 1 := by linarith
    have h100 : (100:ℚ) ≤ (peers.length : ℚ) / ((peers.length : ℚ) - 1) * 100 := by
      rw [div_mul_eq_mul_div, le_div_iff₀ hp]
      ring_nf
      linarith
    rw [max_eq_left (by linarith), min_eq_right h100]
  · rw [hform [10, 20, 30, 40] 30 (by decide),
      show countLess 30 [10, 20, 30, 40] = 2 from by decide]
    norm_num
  · intro p
    simp [calculate_percentile_rank]

open InvoiceDashboard in
/-- C1 witness: the hypothesis-bearing clauses applied at concrete
inputs. -/
theorem c1_percentile_rank_witness :
    calculate_percentile_rank 5 [] none = 50 ∧
    calculate_percentile_rank 5 [10, 20] none = 0 ∧
    calculate_percentile_rank 50 [10, 20] none = 100 ∧
    calculate_percentile_rank 50 [7] none = 50 :=
  ⟨(c1_percentile_rank [] 5).1 (by decide),
   (c1_percentile_rank [10, 20] 5).2.2.1 (by decide) (by decide),
   (c1_percentile_rank [10, 20] 50).2.2.2.1 (by decide) (by decide),
   (c1_percentile_rank [] 50).2.2.2.2.2 7⟩

/-! ## C2 — null collection rate on zero-billed branches -/

open InvoiceDashboard in
/-- C2: a zero-billed branch gets collection rate `none` (never 100%)
and no collection-rate rank; the peer set used for collection ranks is
exactly the positive-billed branches' rates; and every branch's
performance score is the 0.40/0.30/0.20/0.10-weighted sum with 50
substituted for a null collection rank inside the sum only (the null
itself is preserved in the output row). -/
theorem c2_zero_billed_policy (rows : List BranchAgg) (r : BranchAgg) :
    calculate_branch_percentiles rows = rows.map (branch_out rows) ∧
    (r.totalBilled = 0 →
      (branch_out rows r).collectionRate = none ∧
      (branch_out rows r).collectionPctl = none) ∧
    valid_collection rows =
      (rows.filter (fun x => 0 < x.totalBilled)).map
        (fun x => x.payments / x.totalBilled * 100) ∧
    (branch_out rows r).performanceScore =
      ((branch_out rows r).collectionPctl.getD 50) * 0.40 +
      (branch_out rows r).paymentsPctl * 0.30 +
      (branch_out rows r).volumePctl * 0.20 +
      (branch_out rows r).retailMixPctl * 0.10 := by
  refine ⟨rfl, ?_, ?_, rfl⟩
  · intro h
    have hcr : collection_rate r = none := by
      simp [collection_rate, h]
    constructor
    · simp [branch_out, hcr]
    · simp [branch_out, hcr]
  · induction rows with
    | nil => simp [valid_collection]
    | cons x xs ih =>
        by_cases hx : 0 < x.totalBilled
        · simp [valid_collection, collection_rate, hx, List.filterMap_cons]
            at ih ⊢
          exact ih
        · simp [valid_collection, collection_rate, hx, List.filterMap_cons]
            at ih ⊢
          exact ih

/-- C2 witness: a branch with totalBilled = 0 in a one-branch frame. -/
theorem c2_zero_billed_policy_witness :
    (InvoiceDashboard.branch_out
        [InvoiceDashboard.BranchAgg.mk "A" 1 0 1 1 1]
        (InvoiceDashboard.BranchAgg.mk "A" 1 0 1 1 1)).collectionRate
      = none ∧
    (InvoiceDashboard.branch_out
        [InvoiceDashboard.BranchAgg.mk "A" 1 0 1 1 1]
        (InvoiceDashboard.BranchAgg.mk "A" 1 0 1 1 1)).collectionPctl
      = none :=
  (c2_zero_billed_policy [InvoiceDashboard.BranchAgg.mk "A" 1 0 1 1 1]
    (InvoiceDashboard.BranchAgg.mk "A" 1 0 1 1 1)).2.1 (by decide)

/-! ## C5 — secondary tie-breaking -/

open InvoiceDashboard in
theorem foldl_min_le_init : ∀ (xs : List ℚ) (a : ℚ), xs.foldl min a ≤ a
  | [], _ => le_refl _
  | b :: bs, a => le_trans (foldl_min_le_init bs (min a b)) (min_le_left a b)

open InvoiceDashboard in
theorem foldl_min_le_mem : ∀ (xs : List ℚ) (a x : ℚ), x ∈ xs →
    xs.foldl min a ≤ x
  | b :: bs, a, x, hx => by
      rcases List.mem_cons.mp hx with h | h
      · subst h
        exact le_trans (foldl_min_le_init bs (min a x)) (min_le_right a x)
      · exact foldl_min_le_mem bs (min a b) x h

open InvoiceDashboard in
theorem seriesMin_le {l : List ℚ} {x : ℚ} (hx : x ∈ l) : seriesMin l ≤ x := by
  match l with
  | a :: as =>
      rcases List.mem_cons.mp hx with h | h
      · subst h
        exact foldl_min_le_init as x
      · exact foldl_min_le_mem as a x h

open InvoiceDashboard in
theorem init_le_foldl_max : ∀ (xs : List ℚ) (a : ℚ), a ≤ xs.foldl max a
  | [], _ => le_refl _
  | b :: bs, a => le_trans (le_max_left a b) (init_le_foldl_max bs (max a b))

open InvoiceDashboard in
theorem mem_le_foldl_max : ∀ (xs : List ℚ) (a x : ℚ), x ∈ xs →
    x ≤ xs.foldl max a
  | b :: bs, a, x, hx => by
      rcases List.mem_cons.mp hx with h | h
      · subst h
        exact le_trans (le_max_right a x) (init_le_foldl_max bs (max a x))
      · exact mem_le_foldl_max bs (max a b) x h

open InvoiceDashboard in
theorem le_seriesMax {l : List ℚ} {x : ℚ} (hx : x ∈ l) : x ≤ seriesMax l := by
  match l with
  | a :: as =>
      rcases List.mem_cons.mp hx with h | h
      · subst h
        exact init_le_foldl_max as x
      · exact mem_le_foldl_max as a x h

open InvoiceDashboard in
theorem countLess_add_countEq_le (v : ℚ) (l : List ℚ) :
    countLess v l + countEq v l ≤ l.length := by
  induction l with
  | nil => simp [countLess, countEq]
  | cons x xs ih =>
      simp only [countLess, countEq, List.filter_cons, List.length_cons] at *
      by_cases h1 : x < v <;> by_cases h2 : x = v
      · subst h2
        exact absurd h1 (lt_irrefl x)
      · simp [h1, h2]
        omega
      · simp [h1, h2]
        omega
      · simp [h1, h2]
        omega

open InvoiceDashboard in
theorem two_le_countEq (l : List ℚ) (v : ℚ) (i j : ℕ)
    (hi : i < l.length) (hj : j < l.length) (hij : i ≠ j)
    (hvi : l[i] = v) (hvj : l[j] = v) :
    2 ≤ countEq v l := by
  wlog hlt : i < j generalizing i j
  · exact this j i hj hi (Ne.symm hij) hvj hvi (by omega)
  have hsplit : l = l.take j ++ l.drop j := (List.take_append_drop j l).symm
  have hdrop : l.drop j = l[j] :: l.drop (j + 1) :=
    List.drop_eq_getElem_cons hj
  have hmem : v ∈ l.take j := by
    have hitake : i < (l.take j).length := by
      simp only [List.length_take]
      omega
    have h' : (l.take j)[i] = l[i] := List.getElem_take l
    rw [← hvi, ← h']
    exact List.getElem_mem hitake
  have h1 : 1 ≤ countEq v (l.take j) := by
    have hf : v ∈ (l.take j).filter (fun x => x = v) :=
      List.mem_filter.mpr ⟨hmem, by simp⟩
    have := List.length_pos.mpr (List.ne_nil_of_mem hf)
    simpa [countEq] using this
  have h2 : 1 ≤ countEq v (l.drop j) := by
    rw [countEq, hdrop, List.filter_cons]
    simp [hvj]
  calc 2 ≤ countEq v (l.take j) + countEq v (l.drop j) := by omega
    _ = countEq v l := by
        simp only [countEq]
        conv_rhs => rw [hsplit]
        rw [List.filter_append, List.length_append]

open InvoiceDashboard in
/-- Evaluation of the tie-broken percentile rank when ties on the primary
metric are present and the secondary range is positive: the clamp is not
binding, so the rank is exactly base-rank plus the normalized-secondary
adjustment, it lies within [0, 100], and the adjustment is at most half a
percentile point. -/
theorem rank_tiebreak_eval (data ss : List ℚ) (v sv : ℚ)
    (hn : 2 ≤ data.length)
    (hceq : 1 < countEq v data)
    (hrange : 0 < seriesMax ss - seriesMin ss)
    (hsv_lo : seriesMin ss ≤ sv) (hsv_hi : sv ≤ seriesMax ss) :
    calculate_percentile_rank v data (some (sv, ss)) =
      (countLess v data : ℚ) / ((data.length : ℚ) - 1) * 100 +
      (sv - seriesMin ss) / (seriesMax ss - seriesMin ss) * (1 / 2) /
        (data.length : ℚ) ∧
    0 ≤ calculate_percentile_rank v data (some (sv, ss)) ∧
    calculate_percentile_rank v data (some (sv, ss)) ≤ 100 ∧
    (sv - seriesMin ss) / (seriesMax ss - seriesMin ss) * (1 / 2) /
        (data.length : ℚ) ≤ 1 / 2 := by
  have h0 : ¬ data.length = 0 := by omega
  have h1 : ¬ data.length = 1 := by omega
  have hN : (2:ℚ) ≤ (data.length : ℚ) := by exact_mod_cast hn
  have hN1 : (0:ℚ) < (data.length : ℚ) - 1 := by linarith
  have hN0 : (0:ℚ) < (data.length : ℚ) := by linarith
  have hcl : countLess v data + countEq v data ≤ data.length :=
    countLess_add_countEq_le v data
  have hclQ : (countLess v data : ℚ) ≤ (data.length : ℚ) - 2 := by
    have h' : countLess v data + 2 ≤ data.length := by omega
    have h'' := (Nat.cast_le (α := ℚ)).mpr h'
    push_cast at h''
    linarith
  have hnorm0 : (0:ℚ) ≤ (sv - seriesMin ss) / (seriesMax ss - seriesMin ss) :=
    div_nonneg (by linarith) (le_of_lt hrange)
  have hnorm1 : (sv - seriesMin ss) / (seriesMax ss - seriesMin ss) ≤ 1 :=
    (div_le_one hrange).mpr (by linarith)
  set c := (countLess v data : ℚ) with hc
  set nm := (sv - seriesMin ss) / (seriesMax ss - seriesMin ss) with hnm
  set N := (data.length : ℚ) with hNdef
  have hbase0 : (0:ℚ) ≤ c / (N - 1) * 100 := by positivity
  have hadj0 : (0:ℚ) ≤ nm * (1 / 2) / N := by positivity
  have hadjhalf : nm * (1 / 2) / N ≤ 1 / 2 := by
    rw [div_le_iff₀ hN0]
    nlinarith
  have hbaseU : c / (N - 1) * 100 ≤ (N - 2) / (N - 1) * 100 := by
    have := (div_le_div_iff_of_pos_right hN1).mpr hclQ
    nlinarith
  have hadjU : nm * (1 / 2) / N ≤ (1 / 2) / N := by
    exact (div_le_div_iff_of_pos_right hN0).mpr (by nlinarith)
  have hfinal : (N - 2) / (N - 1) * 100 + (1 / 2) / N ≤ 100 := by
    rw [div_mul_eq_mul_div, div_add_div _ _ (ne_of_gt hN1) (ne_of_gt hN0),
      div_le_iff₀ (by positivity)]
    ring_nf
    nlinarith
  have hx0 : 0 ≤ c / (N - 1) * 100 + nm * (1 / 2) / N := add_nonneg hbase0 hadj0
  have hxU : c / (N - 1) * 100 + nm * (1 / 2) / N ≤ 100 := by
    linarith [add_le_add hbaseU hadjU]
  have heval : calculate_percentile_rank v data (some (sv, ss)) =
      min (max (c / (N - 1) * 100 + nm * (1 / 2) / N) 0) 100 := by
    simp only [calculate_percentile_rank]
    rw [if_neg h0, if_neg h1, if_pos hceq, if_pos hrange]
  have hrank : calculate_percentile_rank v data (some (sv, ss)) =
      c / (N - 1) * 100 + nm * (1 / 2) / N := by
    rw [heval, max_eq_left hx0, min_eq_left hxU]
  refine ⟨hrank, ?_, ?_, hadjhalf⟩
  · rw [hrank]; exact hx0
  · rw [hrank]; exact hxU

open InvoiceDashboard in
/-- C5: two branches tied exactly on payments but with different invoice
counts receive different payments ranks, ordered with the invoice count:
each rank is exactly base-rank plus the min-max-normalized invoice count
times 0.5 / n (the bases coincide), the nudges lie in [0, 1/2], and both
final ranks stay within [0, 100]. -/
theorem c5_payments_tiebreak (rows : List BranchAgg) (i j : ℕ)
    (hi : i < rows.length) (hj : j < rows.length) (hij : i ≠ j)
    (hpay : (rows[i]).payments = (rows[j]).payments)
    (hinv : (rows[i]).invoices < (rows[j]).invoices) :
    (branch_out rows (rows[i])).paymentsPctl =
      (countLess (rows[i]).payments (rows.map (fun x => x.payments)) : ℚ) /
        ((rows.length : ℚ) - 1) * 100 +
      ((rows[i]).invoices - seriesMin (rows.map (fun x => x.invoices))) /
        (seriesMax (rows.map (fun x => x.invoices)) -
          seriesMin (rows.map (fun x => x.invoices))) * (1 / 2) /
        (rows.length : ℚ) ∧
    (branch_out rows (rows[j])).paymentsPctl =
      (countLess (rows[j]).payments (rows.map (fun x => x.payments)) : ℚ) /
        ((rows.length : ℚ) - 1) * 100 +
      ((rows[j]).invoices - seriesMin (rows.map (fun x => x.invoices))) /
        (seriesMax (rows.map (fun x => x.invoices)) -
          seriesMin (rows.map (fun x => x.invoices))) * (1 / 2) /
        (rows.length : ℚ) ∧
    countLess (rows[i]).payments (rows.map (fun x => x.payments)) =
      countLess (rows[j]).payments (rows.map (fun x => x.payments)) ∧
    (branch_out rows (rows[i])).paymentsPctl <
      (branch_out rows (rows[j])).paymentsPctl ∧
    0 ≤ (branch_out rows (rows[i])).paymentsPctl ∧
    (branch_out rows (rows[j])).paymentsPctl ≤ 100 ∧
    0 ≤ ((rows[i]).invoices - seriesMin (rows.map (fun x => x.invoices))) /
        (seriesMax (rows.map (fun x => x.invoices)) -
          seriesMin (rows.map (fun x => x.invoices))) * (1 / 2) /
        (rows.length : ℚ) ∧
    ((rows[j]).invoices - seriesMin (rows.map (fun x => x.invoices))) /
        (seriesMax (rows.map (fun x => x.invoices)) -
          seriesMin (rows.map (fun x => x.invoices))) * (1 / 2) /
        (rows.length : ℚ) ≤ 1 / 2 := by
  have hn2 : 2 ≤ rows.length := by omega
  set P := rows.map (fun x => x.payments) with hP
  set S := rows.map (fun x => x.invoices) with hS
  have hPlen : P.length = rows.length := by simp [hP]
  have hSlen : S.length = rows.length := by simp [hS]
  have hi' : i < P.length := by omega
  have hj' : j < P.length := by omega
  have hPi : P[i] = (rows[i]).payments := by simp [hP]
  have hPj : P[j] = (rows[j]).payments := by simp [hP]
  have hSi : S[i] = (rows[i]).invoices := by simp [hS]
  have hSj : S[j] = (rows[j]).invoices := by simp [hS]
  have hmemSi : (rows[i]).invoices ∈ S := hSi ▸ List.getElem_mem _
  have hmemSj : (rows[j]).invoices ∈ S := hSj ▸ List.getElem_mem _
  have hlo_i := seriesMin_le hmemSi
  have hhi_i := le_seriesMax hmemSi
  have hlo_j := seriesMin_le hmemSj
  have hhi_j := le_seriesMax hmemSj
  have hrange : 0 < seriesMax S - seriesMin S := by linarith
  have hnP : 2 ≤ P.length := by omega
  have hceq_i : 1 < countEq (rows[i]).payments P :=
    two_le_countEq P _ i j hi' hj' hij hPi (hPj.trans hpay.symm)
  have hceq_j : 1 < countEq (rows[j]).payments P := hpay ▸ hceq_i
  have Ei := rank_tiebreak_eval P S (rows[i]).payments
    (rows[i]).invoices hnP hceq_i hrange hlo_i hhi_i
  have Ej := rank_tiebreak_eval P S (rows[j]).payments
    (rows[j]).invoices hnP hceq_j hrange hlo_j hhi_j
  have hbo_i : (branch_out rows (rows[i])).paymentsPctl =
      calculate_percentile_rank (rows[i]).payments P
        (some ((rows[i]).invoices, S)) := rfl
  have hbo_j : (branch_out rows (rows[j])).paymentsPctl =
      calculate_percentile_rank (rows[j]).payments P
        (some ((rows[j]).invoices, S)) := rfl
  have hcless : countLess (rows[i]).payments P =
      countLess (rows[j]).payments P := by rw [hpay]
  have hN0 : (0:ℚ) < (rows.length : ℚ) := by
    have h2c : (2:ℚ) ≤ (rows.length : ℚ) := by exact_mod_cast hn2
    linarith
  have hadjlt : ((rows[i]).invoices - seriesMin S) /
      (seriesMax S - seriesMin S) * (1 / 2) / (rows.length : ℚ) <
      ((rows[j]).invoices - seriesMin S) /
      (seriesMax S - seriesMin S) * (1 / 2) / (rows.length : ℚ) := by
    apply (div_lt_div_iff_of_pos_right hN0).mpr
    apply mul_lt_mul_of_pos_right ?_ (by norm_num)
    exact (div_lt_div_iff_of_pos_right hrange).mpr (by linarith)
  have hlenQ : (P.length : ℚ) = (rows.length : ℚ) := by exact_mod_cast hPlen
  rw [hbo_i, hbo_j]
  rw [hlenQ] at Ei Ej
  refine ⟨Ei.1, Ej.1, hcless, ?_, Ei.2.1, Ej.2.2.1, ?_, Ej.2.2.2⟩
  · rw [Ei.1, Ej.1, ← hcless]
    exact add_lt_add_left hadjlt _
  · exact div_nonneg (mul_nonneg (div_nonneg (by linarith) hrange.le)
      (by norm_num)) hN0.le

open InvoiceDashboard in
/-- C5 witness: two branches tied on payments 10 with invoice counts
5 and 7 in a two-branch frame. -/
theorem c5_payments_tiebreak_witness :
    (branch_out
        [BranchAgg.mk "A" 10 20 1 1 5, BranchAgg.mk "B" 10 20 1 1 7]
        (BranchAgg.mk "A" 10 20 1 1 5)).paymentsPctl <
      (branch_out
        [BranchAgg.mk "A" 10 20 1 1 5, BranchAgg.mk "B" 10 20 1 1 7]
        (BranchAgg.mk "B" 10 20 1 1 7)).paymentsPctl :=
  (c5_payments_tiebreak
    [BranchAgg.mk "A" 10 20 1 1 5, BranchAgg.mk "B" 10 20 1 1 7]
    0 1 (by decide) (by decide) (by decide) (by decide) (by decide)).2.2.2.1

/-- C6 witness: mutual exclusion evaluated at the self-pay label. -/
theorem c6_single_label_rule_witness :
    ¬ ((AnalyzeInvoices.classify_payor (some "Patient")).1 = true ∧
       (AnalyzeInvoices.classify_payor (some "Patient")).2 = true) :=
  (c6_single_label_rule (some "Patient")).2.2.2

/-! ## C7 — zero-denominator guards on percentage fields -/

/-- C7: the per-period and per-branch percentage fields are guarded and
yield 0 on an empty (zero-denominator) grouping, but the synthetic TOTAL
row's Retail % and Insurance % divide without a guard: on a run whose
period batches are all empty they are numpy 0/0 = NaN (modelled `none`),
not 0 — the computation still raises no division error. -/
theorem c7_total_row_unguarded :
    AnalyzeSalesOrders.summaryRetailPct [] = 0 ∧
    AnalyzeSalesOrders.summaryInsurancePct [] = 0 ∧
    AnalyzeSalesOrders.branchRetailPct [] = 0 ∧
    AnalyzeSalesOrders.branchInsurancePct [] = 0 ∧
    AnalyzeSalesOrders.totalRetailPct [[]] = none ∧
    AnalyzeSalesOrders.totalInsurancePct [[]] = none ∧
    AnalyzeSalesOrders.totalRetailPct [[]] ≠ some 0 ∧
    AnalyzeSalesOrders.totalInsurancePct [[]] ≠ some 0 := by
  refine ⟨by decide, by decide, by decide, by decide, by decide, by decide,
    ?_, ?_⟩
  · intro h
    rw [show AnalyzeSalesOrders.totalRetailPct [[]] = none from by decide]
      at h
    exact Option.noConfusion h
  · intro h
    rw [show AnalyzeSalesOrders.totalInsurancePct [[]] = none from by decide]
      at h
    exact Option.noConfusion h

/-! ## C8 — billing-period bucketing -/

open AnalyzeInvoices in
theorem bucket_countP_eq_one (p : ℤ) (h1 : 1 ≤ p) (h2 : p ≤ 999) :
    period_buckets.countP
      (fun b => decide (b.1 ≤ p ∧ p ≤ b.2.1)) = 1 := by
  simp only [period_buckets, List.countP_cons, List.countP_nil,
    decide_eq_true_eq]
  split_ifs <;> omega

open AnalyzeInvoices in
theorem sum_map_ite_buckets (p : ℤ) (c : ℚ) (h1 : 1 ≤ p) (h2 : p ≤ 999) :
    (period_buckets.map
      (fun b => if b.1 ≤ p ∧ p ≤ b.2.1 then c else 0)).sum = c := by
  simp only [period_buckets, List.map_cons, List.map_nil, List.sum_cons,
    List.sum_nil]
  split_ifs <;> first | ring1 | (exfalso; omega)

theorem sum_map_add_distrib (l : List (ℤ × ℤ × String))
    (f g : ℤ × ℤ × String → ℚ) :
    (l.map (fun b => f b + g b)).sum = (l.map f).sum + (l.map g).sum := by
  induction l with
  | nil => simp
  | cons x xs ih =>
      simp [ih]
      ring

open AnalyzeInvoices in
/-- Any per-record weight summed bucket-by-bucket equals its sum over all
records, when every billing period lies in the covered range 1..999. -/
theorem bucket_partition_sum (records : List InvRecord)
    (f : InvRecord → ℚ)
    (h : ∀ r ∈ records, 1 ≤ r.billingPeriod ∧ r.billingPeriod ≤ 999) :
    (period_buckets.map
      (fun b => ((bucketItems records b).map f).sum)).sum
      = (records.map f).sum := by
  induction records with
  | nil => simp [bucketItems]
  | cons r rest ih =>
      have hr := h r (List.mem_cons_self r rest)
      have hrest : ∀ x ∈ rest, 1 ≤ x.billingPeriod ∧ x.billingPeriod ≤ 999 :=
        fun x hx => h x (List.mem_cons_of_mem r hx)
      have hstep : ∀ b : ℤ × ℤ × String,
          ((bucketItems (r :: rest) b).map f).sum =
            (if b.1 ≤ r.billingPeriod ∧ r.billingPeriod ≤ b.2.1 then f r
              else 0) + ((bucketItems rest b).map f).sum := by
        intro b
        simp only [bucketItems, List.filter_cons]
        by_cases hb : b.1 ≤ r.billingPeriod ∧ r.billingPeriod ≤ b.2.1
        · simp [hb]
        · simp [hb]
      simp only [hstep]
      rw [sum_map_add_distrib, sum_map_ite_buckets r.billingPeriod (f r)
        hr.1 hr.2, ih hrest]
      simp

theorem sum_map_mul_const (l : List (ℤ × ℤ × String))
    (g : ℤ × ℤ × String → ℚ) (c : ℚ) :
    (l.map (fun b => g b * c)).sum = (l.map g).sum * c := by
  induction l with
  | nil => simp
  | cons x xs ih =>
      simp [ih]
      ring

open AnalyzeInvoices in
theorem sum_map_one (l : List InvRecord) :
    (l.map (fun _ => (1:ℚ))).sum = (l.length : ℚ) := by
  induction l with
  | nil => simp
  | cons x xs ih =>
      simp [ih]
      ring

open AnalyzeInvoices in
/-- C8 counterexample: a record with billing period 1000 (a positive
integer) falls into none of the buckets — the top bucket stops at 999 —
so for the two-record batch with periods 1 and 1000 the item shares over
the buckets sum to 50%, not 100%. -/
theorem c8_counterexample :
    (∀ b ∈ period_buckets, ¬ (b.1 ≤ (1000:ℤ) ∧ (1000:ℤ) ≤ b.2.1)) ∧
    (period_buckets.map
      (itemPctRaw [InvRecord.mk 1 0, InvRecord.mk 1000 0])).sum = 50 ∧
    (50:ℚ) ≠ 100 := by
  refine ⟨by decide, ?_, by decide⟩
  simp only [period_buckets, List.map_cons, List.map_nil, List.sum_cons,
    List.sum_nil, itemPctRaw]
  rw [show (bucketItems [InvRecord.mk 1 0, InvRecord.mk 1000 0]
        (1, 1, "Period 1 (New)")).length = 1 from by decide,
      show (bucketItems [InvRecord.mk 1 0, InvRecord.mk 1000 0]
        (2, 3, "Period 2-3")).length = 0 from by decide,
      show (bucketItems [InvRecord.mk 1 0, InvRecord.mk 1000 0]
        (4, 6, "Period 4-6")).length = 0 from by decide,
      show (bucketItems [InvRecord.mk 1 0, InvRecord.mk 1000 0]
        (7, 12, "Period 7-12")).length = 0 from by decide,
      show (bucketItems [InvRecord.mk 1 0, InvRecord.mk 1000 0]
        (13, 24, "Period 13-24")).length = 0 from by decide,
      show (bucketItems [InvRecord.mk 1 0, InvRecord.mk 1000 0]
        (25, 36, "Period 25-36")).length = 0 from by decide,
      show (bucketItems [InvRecord.mk 1 0, InvRecord.mk 1000 0]
        (37, 999, "Period 37+")).length = 0 from by decide,
      show ([InvRecord.mk 1 0, InvRecord.mk 1000 0] : List InvRecord).length
        = 2 from rfl]
  norm_num

open AnalyzeInvoices in
/-- C8 (amended: the top bucket is capped at period 999, so the partition
and the 100% share totals hold for batches whose billing periods all lie
in 1..999): every such record falls into exactly one bucket, the
unrounded item shares over the buckets sum to 100, the unrounded payment
shares sum to 100 whenever total payments are positive, and a missing or
unparseable billing period defaults to 1. -/
theorem c8_buckets_partition (records : List InvRecord)
    (hne : records ≠ [])
    (hbp : ∀ r ∈ records, 1 ≤ r.billingPeriod ∧ r.billingPeriod ≤ 999) :
    (∀ r ∈ records, period_buckets.countP
      (fun b => decide (b.1 ≤ r.billingPeriod ∧ r.billingPeriod ≤ b.2.1))
        = 1) ∧
    (period_buckets.map (itemPctRaw records)).sum = 100 ∧
    (0 < totalPayments records →
      (period_buckets.map (paymentPctRaw records)).sum = 100) ∧
    parse_billing_period none = 1 ∧
    parse_billing_period (some "abc") = 1 := by
  have hN : (0:ℚ) < (records.length : ℚ) := by
    have hpos : 0 < records.length := List.length_pos.mpr hne
    exact_mod_cast hpos
  refine ⟨fun r hr => bucket_countP_eq_one _ (hbp r hr).1 (hbp r hr).2,
    ?_, ?_, by decide, by decide⟩
  · have hone := bucket_partition_sum records (fun _ => (1:ℚ)) hbp
    have hlens : (period_buckets.map
        (fun b => ((bucketItems records b).length : ℚ))).sum
        = (records.length : ℚ) := by
      rw [← sum_map_one records, ← hone]
      congr 1
      exact List.map_congr_left fun b _ => (sum_map_one _).symm ▸ rfl
    have hmc : period_buckets.map (itemPctRaw records) =
        period_buckets.map (fun b => ((bucketItems records b).length : ℚ) *
          (100 / (records.length : ℚ))) :=
      List.map_congr_left fun b _ => by rw [itemPctRaw]; ring
    rw [hmc, sum_map_mul_const, hlens]
    field_simp
  · intro hpos
    have hkey := bucket_partition_sum records (fun r => r.payments) hbp
    have hmc : period_buckets.map (paymentPctRaw records) =
        period_buckets.map (fun b => totalPayments (bucketItems records b) *
          (100 / totalPayments records)) :=
      List.map_congr_left fun b _ => by
        rw [paymentPctRaw, if_pos hpos, totalPayments]
        ring
    rw [hmc, sum_map_mul_const]
    have hsum : (period_buckets.map
        (fun b => totalPayments (bucketItems records b))).sum
        = totalPayments records := hkey
    rw [hsum]
    field_simp

open AnalyzeInvoices in
/-- C8 witness: a one-record batch with billing period 1 and positive
payments. -/
theorem c8_buckets_partition_witness :
    (period_buckets.map (itemPctRaw [InvRecord.mk 1 5])).sum = 100 ∧
    (period_buckets.map (paymentPctRaw [InvRecord.mk 1 5])).sum = 100 :=
  ⟨(c8_buckets_partition [InvRecord.mk 1 5] (by decide) (by decide)).2.1,
   (c8_buckets_partition [InvRecord.mk 1 5] (by decide) (by decide)).2.2.1
     (by simp [totalPayments])⟩

end RetailDash
